import Mathlib

/-!
Shallow embedding of `tools/proc.py` from the `albu` repository: a batch
photo pipeline that reads EXIF capture time and orientation, rotates,
produces resized variants, writes them idempotently (content-hash gated)
and emits a manifest sorted by capture time.

External capabilities (the image codec, the hash, JSON encoding) are
modelled as parameters bundled in `Codec`; the filesystem is an
association list from paths to byte lists.
-/

/-- Value stored in an embedded EXIF tag: a string (as the capture-time tag
0x0132) or an integer (as the orientation tag 0x0112). -/
inductive ExifVal where
  | str (s : String)
  | num (n : Nat)
  deriving DecidableEq

/-- A decoded image: pixel-buffer dimensions plus the embedded tag set.
`exif = none` models `image._getexif()` returning `None`. -/
structure Image where
  height : Nat
  width : Nat
  exif : Option (List (Nat × ExifVal))
  deriving DecidableEq

/-- The metadata dict built in `open_image`:
`{'hw': [image.height, image.width], 'time': time, 'name': file_path.name}`. -/
structure PhotoMeta where
  hw : List Nat
  time : String
  name : String
  deriving DecidableEq

/-- A filesystem path, as a list of components. -/
abbrev FsPath := List String

/-- The destination tree: an association list from file paths to written
byte contents (later bindings shadow earlier ones) together with the set
of existing directories; opening a file for writing requires the parent
directory to exist. -/
structure FileSys where
  files : List (FsPath × List Nat)
  dirs : List FsPath
  deriving DecidableEq

/-- `dest_file_path.write_bytes(...)`: bind `p` to `bytes`. -/
def setFile (p : FsPath) (bytes : List Nat) (fs : FileSys) : FileSys :=
  { fs with files := (p, bytes) :: fs.files }

/-- Read the current contents of file `p`, `none` when `p` does not exist. -/
def getFile (fs : FileSys) (p : FsPath) : Option (List Nat) :=
  fs.files.lookup p

/-- `p.mkdir(parents=True, exist_ok=True)`: create `p` and every missing
ancestor, with no error for the ones that already exist (duplicates in the
list are harmless, the model only reads membership). -/
def mkdirParents (p : FsPath) (fs : FileSys) : FileSys :=
  { fs with dirs := (List.range p.length).map (fun i => p.take (i + 1)) ++ fs.dirs }

/-- External collaborators of the pipeline, used as black boxes by the
source: JPEG encoding at a quality (`image.save(buffer, format='jpeg', ...)`),
the `hashlib.md5` digest, PIL `Image.thumbnail`, and `json.dump`. -/
structure Codec where
  encode : Image → Nat → List Nat
  md5 : List Nat → List Nat
  thumbnail : Image → Nat × Nat → Image
  jsonDump : List PhotoMeta → List Nat

/-- A source file: its path components (the last one is `file_path.name`)
and the result of decoding it; `image = none` models `Image.open` raising
on corrupt or unsupported bytes. -/
structure SourceFile where
  path : FsPath
  image : Option Image

/-- Exceptions the source leaves uncaught: `Image.open` raising on
undecodable bytes, `datetime.strptime` raising on a malformed capture-time
value (both escape per-file processing), and the driver's
`meta_file_path.open('w')` raising `FileNotFoundError` when the manifest's
parent directory does not exist. -/
inductive PipeErr where
  | decodeFailure
  | timeParseFailure (msg : String)
  | fileNotFound
  deriving DecidableEq

/-- Numeric value of a decimal digit character. -/
def digitVal (c : Char) : Nat := c.toNat - 48

/-- Leap years of the proleptic Gregorian calendar, as Python `datetime`. -/
def isLeapYear (y : Nat) : Bool :=
  (y % 4 == 0 && y % 100 != 0) || y % 400 == 0

/-- Length of month `m` of year `y`, as validated by Python `datetime`. -/
def daysInMonth (y m : Nat) : Nat :=
  if m = 2 then (if isLeapYear y then 29 else 28)
  else if m = 4 ∨ m = 6 ∨ m = 9 ∨ m = 11 then 30
  else 31

/-- The `%Y` directive of strptime: its regex is exactly four digit
characters. -/
def matchYear : List Char → Option (Nat × List Char)
  | y1 :: y2 :: y3 :: y4 :: rest =>
    if (y1.isDigit && y2.isDigit && y3.isDigit && y4.isDigit) = true then
      some (digitVal y1 * 1000 + digitVal y2 * 100 + digitVal y3 * 10 + digitVal y4,
        rest)
    else none
  | _ => none

/-- A literal character of the strptime format. -/
def expectChar (c : Char) : List Char → Option (List Char)
  | x :: rest => if x = c then some rest else none
  | [] => none

/-- Whitespace in a strptime format matches the regex `\s+`: at least one
whitespace character, consuming the whole run. -/
def matchSpaces : List Char → Option (List Char)
  | x :: rest =>
    if x.isWhitespace = true then some (rest.dropWhile Char.isWhitespace)
    else none
  | [] => none

/-- One numeric directive of the strptime format: its regex is an ordered
alternation whose alternatives consume one or two digit characters (for
example `%m` is `1[0-2]|0[1-9]|[1-9]`), and in this format a non-digit (or
the end of the text) always follows the directive, so the length of the
leading digit run decides which alternative can complete: `ok1` and `ok2`
are the value sets of the one- and two-digit alternatives, and a run of
three or more digits fails. -/
def matchField (ok1 ok2 : Nat → Bool) : List Char → Option (Nat × List Char)
  | [] => none
  | c1 :: rest1 =>
    if c1.isDigit = true then
      match rest1 with
      | c2 :: rest2 =>
        if c2.isDigit = true then
          if (match rest2 with | c3 :: _ => c3.isDigit | [] => false) = true then
            none
          else if ok2 (digitVal c1 * 10 + digitVal c2) = true then
            some (digitVal c1 * 10 + digitVal c2, rest2)
          else none
        else if ok1 (digitVal c1) = true then some (digitVal c1, rest1)
        else none
      | [] =>
        if ok1 (digitVal c1) = true then some (digitVal c1, rest1) else none
    else none

/-- The one-digit alternative `[1-9]` of the `%m` regex. -/
def monthOk1 (v : Nat) : Bool := decide (1 ≤ v ∧ v ≤ 9)

/-- The two-digit alternatives `1[0-2]|0[1-9]` of the `%m` regex. -/
def monthOk2 (v : Nat) : Bool := decide (1 ≤ v ∧ v ≤ 12)

/-- The one-digit alternative `[1-9]` of the `%d` regex. -/
def dayOk1 (v : Nat) : Bool := decide (1 ≤ v ∧ v ≤ 9)

/-- The two-digit alternatives `3[01]|[12]\d|0[1-9]` of the `%d` regex. -/
def dayOk2 (v : Nat) : Bool := decide (1 ≤ v ∧ v ≤ 31)

/-- The one-digit alternative `\d` of the `%H` regex. -/
def hourOk1 (v : Nat) : Bool := decide (v ≤ 9)

/-- The two-digit alternatives `2[0-3]|[0-1]\d` of the `%H` regex. -/
def hourOk2 (v : Nat) : Bool := decide (v ≤ 23)

/-- The one-digit alternative `\d` of the `%M` regex. -/
def minuteOk1 (v : Nat) : Bool := decide (v ≤ 9)

/-- The two-digit alternative `[0-5]\d` of the `%M` regex. -/
def minuteOk2 (v : Nat) : Bool := decide (v ≤ 59)

/-- The one-digit alternative `\d` of the `%S` regex. -/
def secondOk1 (v : Nat) : Bool := decide (v ≤ 9)

/-- The two-digit alternatives `6[0-1]|[0-5]\d` of the `%S` regex (the
leap-second values 60 and 61 match here and are rejected later by the
`datetime` constructor). -/
def secondOk2 (v : Nat) : Bool := decide (v ≤ 61)

/-- The regex match strptime performs for the format `%Y:%m:%d %H:%M:%S`:
four year digits, literal colons, one-or-two-digit month, day, hour,
minute and second fields (non-zero-padded values are accepted), the
format's blank matching a run of whitespace, and no text left over
(strptime raises `unconverted data remains` otherwise). Returns the six
numeric fields, `none` when the text does not match. -/
def matchExifPattern (cs : List Char) : Option (Nat × Nat × Nat × Nat × Nat × Nat) :=
  match matchYear cs with
  | none => none
  | some (y, r1) =>
    match expectChar ':' r1 with
    | none => none
    | some r2 =>
      match matchField monthOk1 monthOk2 r2 with
      | none => none
      | some (mo, r3) =>
        match expectChar ':' r3 with
        | none => none
        | some r4 =>
          match matchField dayOk1 dayOk2 r4 with
          | none => none
          | some (d, r5) =>
            match matchSpaces r5 with
            | none => none
            | some r6 =>
              match matchField hourOk1 hourOk2 r6 with
              | none => none
              | some (h, r7) =>
                match expectChar ':' r7 with
                | none => none
                | some r8 =>
                  match matchField minuteOk1 minuteOk2 r8 with
                  | none => none
                  | some (mi, r9) =>
                    match expectChar ':' r9 with
                    | none => none
                    | some r10 =>
                      match matchField secondOk1 secondOk2 r10 with
                      | none => none
                      | some (s, r11) =>
                        if r11 = [] then some (y, mo, d, h, mi, s) else none

/-- Zero-padded two-digit decimal rendering, as Python `%02d` for values
below 100. -/
def pad2 (n : Nat) : String :=
  String.mk [Char.ofNat (48 + n / 10 % 10), Char.ofNat (48 + n % 10)]

/-- Zero-padded four-digit decimal rendering, as Python `%04d` for values
below 10000. -/
def pad4 (n : Nat) : String :=
  String.mk [Char.ofNat (48 + n / 1000 % 10), Char.ofNat (48 + n / 100 % 10),
             Char.ofNat (48 + n / 10 % 10), Char.ofNat (48 + n % 10)]

/-- `datetime.isoformat()` of a whole-second datetime carrying the fixed
`timezone(timedelta(hours=8))` offset attached by `parse_time`. -/
def isoFormat8 (y mo d h mi s : Nat) : String :=
  pad4 y ++ "-" ++ pad2 mo ++ "-" ++ pad2 d ++ "T" ++
    pad2 h ++ ":" ++ pad2 mi ++ ":" ++ pad2 s ++ "+08:00"

/-- `parse_time` from the source: `datetime.strptime(datestr, '%Y:%m:%d %H:%M:%S')`
raises `ValueError` (modelled as `.error`) when the text does not match the
format's regex, and otherwise hands the six fields to the `datetime`
constructor, which validates the year (at least 1), the day against the
month's length, and the second (rejecting the leap-second values the `%S`
regex admits); the parsed value never carries zone information, so the
source attaches the fixed UTC+8 offset and renders with `isoformat()`. -/
def parse_time (datestr : String) : Except String String :=
  match matchExifPattern datestr.toList with
  | none => Except.error ("time data does not match format")
  | some (y, mo, d, h, mi, s) =>
    if 1 ≤ y ∧ 1 ≤ mo ∧ mo ≤ 12 ∧ 1 ≤ d ∧ d ≤ daysInMonth y mo ∧
        h ≤ 23 ∧ mi ≤ 59 ∧ s ≤ 59 then
      Except.ok (isoFormat8 y mo d h mi s)
    else Except.error ("invalid time field value")

/-- The rotation-degree table `{3: 180, 6: 270, 8: 90}.get(orientation)`. -/
def orientationDegree (o : Nat) : Option Nat :=
  if o = 3 then some 180 else if o = 6 then some 270 else
    if o = 8 then some 90 else none

/-- PIL `image.rotate(degree, expand=True)` at the right-angle degrees the
source uses: the expanded canvas swaps height and width for 90 and 270 and
keeps them for 180. -/
def Image.rotate (image : Image) (degree : Nat) : Image :=
  if degree = 90 ∨ degree = 270 then
    { image with height := image.width, width := image.height }
  else image

/-- The orientation block of `open_image`: when tag 0x0112 is present and
its value maps to a degree, rotate with canvas expansion; a value outside
the table (`dict.get` returning `None`, also for a non-integer value) or an
absent tag leaves the image as is. -/
def orientImage (tags : List (Nat × ExifVal)) (image : Image) : Image :=
  match tags.lookup 0x0112 with
  | some (ExifVal.num o) =>
    match orientationDegree o with
    | some degree => image.rotate degree
    | none => image
  | _ => image

/-- `Processor.resize`: `bbox = None` returns the image unchanged, otherwise
a copy shrunk with `Image.thumbnail(bbox)`. -/
def resize (c : Codec) (image : Image) (bbox : Option (Nat × Nat)) : Image :=
  match bbox with
  | none => image
  | some b => c.thumbnail image b

/-- The fixed variant table of `open_image` (the `m`/`l` tiers are commented
out in the source). -/
def variantSpecs : List (String × Option (Nat × Nat)) :=
  [("xs", some (10, 10)), ("s", some (800, 800)), ("ori", none)]

/-- `file_path.name`: the last path component. -/
def fileName (f : SourceFile) : String :=
  f.path.getLastD ("")

/-- `Processor.open_image`: decode (a decode failure raises), read the tag
set; when it is absent or lacks tag 0x0132, log and return with `meta`
still `None` (modelled `.ok none`); otherwise parse the capture time
(a malformed value raises), apply orientation, and build the metadata
record and the variant images. -/
def open_image (c : Codec) (f : SourceFile) :
    Except PipeErr (Option (PhotoMeta × List (String × Image))) :=
  match f.image with
  | none => Except.error PipeErr.decodeFailure
  | some image =>
    match image.exif with
    | none => Except.ok none
    | some exif =>
      match exif.lookup 0x0132 with
      | none => Except.ok none
      | some (ExifVal.num _) =>
        Except.error (PipeErr.timeParseFailure ("strptime argument must be str"))
      | some (ExifVal.str v) =>
        match parse_time v with
        | Except.error e => Except.error (PipeErr.timeParseFailure e)
        | Except.ok time =>
          let oriented := orientImage exif image
          let meta : PhotoMeta :=
            { hw := [oriented.height, oriented.width], time := time, name := fileName f }
          let imgs := variantSpecs.map (fun nb => (nb.1, resize c oriented nb.2))
          Except.ok (some (meta, imgs))

/-- Whether `_save_file` wrote the destination or skipped it; the source
reports this only through its log lines. -/
inductive WriteResult where
  | written
  | skipped
  deriving DecidableEq

/-- `Processor._save_file`: encode the image into a buffer; when the
destination exists, compare the md5 digests of the buffer and of the
existing bytes — equal digests skip the write and leave the filesystem
untouched, different digests overwrite; a missing destination is written
directly. -/
def save_file (c : Codec) (quality : Nat) (dest : FsPath) (image : Image)
    (fs : FileSys) : WriteResult × FileSys :=
  let buffer := c.encode image quality
  match getFile fs dest with
  | some existing =>
    if c.md5 buffer = c.md5 existing then (WriteResult.skipped, fs)
    else (WriteResult.written, setFile dest buffer fs)
  | none => (WriteResult.written, setFile dest buffer fs)

/-- `Processor.save`: for every variant, create the destination directory
`file_path.parent.parent/_generated/<variant>` with
`mkdir(parents=True, exist_ok=True)`, then write
`<dest_dir>/<file_path.name>` through `_save_file`. -/
def save (c : Codec) (quality : Nat) (f : SourceFile)
    (imgs : List (String × Image)) (fs : FileSys) : FileSys :=
  imgs.foldl (fun acc ni =>
    (save_file c quality (f.path.dropLast.dropLast ++ ["_generated", ni.1] ++ [fileName f])
      ni.2 (mkdirParents (f.path.dropLast.dropLast ++ ["_generated", ni.1]) acc)).2) fs

/-- `Processor.process_and_get_meta`: construct the processor (running
`open_image`), call `save` when `meta` is not `None`, return `meta`;
exceptions from `open_image` propagate. -/
def process_and_get_meta (c : Codec) (quality : Nat) (fs : FileSys)
    (f : SourceFile) : Except PipeErr (Option PhotoMeta × FileSys) :=
  match open_image c f with
  | Except.error e => Except.error e
  | Except.ok none => Except.ok (none, fs)
  | Except.ok (some (meta, imgs)) =>
    Except.ok (some meta, save c quality f imgs fs)

/-- `Pool(...).map(Processor.process_and_get_meta, files)`: results in input
order; an exception raised by any task re-raises from `map`, so no result
list is produced. -/
def poolMap (c : Codec) (quality : Nat) :
    List SourceFile → FileSys → Except PipeErr (List (Option PhotoMeta) × FileSys)
  | [], fs => Except.ok ([], fs)
  | f :: rest, fs =>
    match process_and_get_meta c quality fs f with
    | Except.error e => Except.error e
    | Except.ok (m, fs1) =>
      match poolMap c quality rest fs1 with
      | Except.error e => Except.error e
      | Except.ok (ms, fs2) => Except.ok (m :: ms, fs2)

/-- Python string comparison `a <= b`: lexicographic by code point, a
strict prefix comparing below its extensions. -/
def strLeB : List Char → List Char → Bool
  | [], _ => true
  | _ :: _, [] => false
  | a :: as, b :: bs =>
    if a.toNat < b.toNat then true
    else if b.toNat < a.toNat then false
    else strLeB as bs

/-- The sort key order `lambda x: x['time']` of the final `sorted` call:
Python compares the `time` strings lexicographically by code point. -/
def timeLe (a b : PhotoMeta) : Prop :=
  strLeB a.time.toList b.time.toList = true

instance : DecidableRel timeLe :=
  fun a b => inferInstanceAs (Decidable (strLeB a.time.toList b.time.toList = true))

/-- `sorted(metas, key=lambda x: x['time'])`: Python `sorted` is a stable
sort, and any stable sort under the same key agrees with stable insertion
sort. -/
def sortMetas (metas : List PhotoMeta) : List PhotoMeta :=
  List.insertionSort timeLe metas

/-- `[meta for meta in metas if meta is not None]` followed by the stable
sort by `time`: the manifest persisted by the driver. -/
def manifestOf (results : List (Option PhotoMeta)) : List PhotoMeta :=
  sortMetas (results.filterMap id)

/-- The `__main__` driver: map the processor over the enumerated files,
drop `None` results, sort by `time`, and dump the manifest as JSON at
`assets_dir/_generated/metas.json`; the driver never creates `_generated`
itself (only `Processor.save` does), so `meta_file_path.open('w')` raises
`FileNotFoundError` when that directory still does not exist. -/
def runBatch (c : Codec) (quality : Nat) (assetsDir : FsPath)
    (files : List SourceFile) (fs : FileSys) :
    Except PipeErr (List PhotoMeta × FileSys) :=
  match poolMap c quality files fs with
  | Except.error e => Except.error e
  | Except.ok (metas, fs1) =>
    let manifest := manifestOf metas
    if (assetsDir ++ ["_generated"]) ∈ fs1.dirs then
      Except.ok (manifest,
        setFile (assetsDir ++ ["_generated", "metas.json"]) (c.jsonDump manifest) fs1)
    else Except.error PipeErr.fileNotFound

/-- The default of the `--nproc` flag: `multiprocessing.cpu_count() // 2`. -/
def defaultNproc (cpuCount : Nat) : Nat := cpuCount / 2

/-- Modelled from the spec sentence "default: half the available hardware
concurrency, minimum 1", for comparison with `defaultNproc`. -/
def specDefaultNproc (cpuCount : Nat) : Nat := max 1 (cpuCount / 2)

/-- A capture-time tag value in the fixed EXIF pattern `YYYY:MM:DD HH:MM:SS`,
zero-padded, built from its six numeric fields. -/
def exifTimeString (y mo d h mi s : Nat) : String :=
  pad4 y ++ ":" ++ pad2 mo ++ ":" ++ pad2 d ++ " " ++
    pad2 h ++ ":" ++ pad2 mi ++ ":" ++ pad2 s

/-- A concrete codec assignment used to exercise the theorems on closed
inputs. -/
def exCodec : Codec where
  encode := fun i q => [i.height, i.width, q]
  md5 := fun bytes => bytes
  thumbnail := fun i _ => i
  jsonDump := fun ms => [ms.length]

/-- A concrete EXIF-free image for closed instances. -/
def exImg : Image := { height := 2, width := 3, exif := none }

/-- A concrete destination path for closed instances. -/
def exPath : FsPath := ["x"]

/-- A source file whose bytes do not decode (`Image.open` raises). -/
def exBadFile : SourceFile :=
  { path := ["assets", "source", "bad.jpg"], image := none }

/-- A source file that decodes but carries no EXIF tag set. -/
def exNoExifFile : SourceFile :=
  { path := ["assets", "source", "noexif.jpg"], image := some exImg }

/-- A concrete tag set whose capture-time tag holds a malformed value. -/
def exBadTimeTags : List (Nat × ExifVal) := [(0x0132, ExifVal.str ("not a date"))]

/-- A concrete image carrying `exBadTimeTags`. -/
def exBadTimeImg : Image := { height := 2, width := 3, exif := some exBadTimeTags }

/-- A source file whose capture-time tag holds a malformed value. -/
def exBadTimeFile : SourceFile :=
  { path := ["assets", "source", "badtime.jpg"], image := some exBadTimeImg }

/-- The strict companion of `timeLe` used to show that sorted lists with
pairwise distinct keys are unique. -/
def timeLtNe (a b : PhotoMeta) : Prop := timeLe a b ∧ a.time ≠ b.time

/-- A concrete tag set with a well-formed capture time and orientation 6. -/
def exGoodTags : List (Nat × ExifVal) :=
  [(0x0132, ExifVal.str ("2023:05:01 10:00:00")), (0x0112, ExifVal.num 6)]

/-- A concrete 2×3 image carrying `exGoodTags`. -/
def exGoodImg : Image := { height := 2, width := 3, exif := some exGoodTags }

/-- A source file with a well-formed capture time and orientation 6. -/
def exGoodFile : SourceFile :=
  { path := ["assets", "source", "good.jpg"], image := some exGoodImg }

/-- Two concrete manifest records sharing one `time` value. -/
def exMetaA : PhotoMeta :=
  { hw := [1, 1], time := "2023-05-01T10:00:00+08:00", name := "a.jpg" }

/-- A second record with the same `time` as `exMetaA` but another name. -/
def exMetaB : PhotoMeta :=
  { hw := [2, 2], time := "2023-05-01T10:00:00+08:00", name := "b.jpg" }

/-- A fresh destination tree: no files, no directories. -/
def emptyFs : FileSys := { files := [], dirs := [] }

/-- A tree holding, at `exPath`, exactly the bytes `exCodec` encodes
`exImg` to at quality 85. -/
def exFsSame : FileSys := { files := [(exPath, [2, 3, 85])], dirs := [] }

/-- A tree holding different bytes at `exPath`. -/
def exFsDiff : FileSys := { files := [(exPath, [9])], dirs := [] }

/-- A destination tree where `assets/_generated` survives from an earlier
run. -/
def preFs : FileSys := { files := [], dirs := [["assets", "_generated"]] }

/-- A concrete tag set whose capture-time value is not zero-padded: it is
not in the fixed-width `YYYY:MM:DD HH:MM:SS` form, yet strptime accepts
it. -/
def exLenientTags : List (Nat × ExifVal) :=
  [(0x0132, ExifVal.str ("2023:5:1 10:0:0"))]

/-- A concrete image carrying `exLenientTags`. -/
def exLenientImg : Image := { height := 2, width := 3, exif := some exLenientTags }

/-- A source file whose capture-time tag is not zero-padded. -/
def exLenientFile : SourceFile :=
  { path := ["assets", "source", "lenient.jpg"], image := some exLenientImg }

/-- The metadata record the pipeline builds for `exGoodFile` (orientation 6
swaps the 2×3 buffer). -/
def exGoodMeta : PhotoMeta :=
  { hw := [3, 2], time := "2023-05-01T10:00:00+08:00", name := "good.jpg" }

/-- The destination tree after processing `exGoodFile` on a fresh tree:
the variant images written by `Processor.save`. -/
def exGoodFs : FileSys :=
  save exCodec 85 exGoodFile
    (variantSpecs.map (fun nb =>
      (nb.1, resize exCodec (orientImage exGoodTags exGoodImg) nb.2))) emptyFs

theorem strLeB_total : ∀ as bs, strLeB as bs = true ∨ strLeB bs as = true := by
  intro as
  induction as with
  | nil => intro bs; left; rfl
  | cons a as ih =>
    intro bs
    cases bs with
    | nil => right; rfl
    | cons b bs =>
      by_cases h1 : a.toNat < b.toNat
      · left; simp [strLeB, h1]
      · by_cases h2 : b.toNat < a.toNat
        · right; simp [strLeB, h2]
        · rcases ih bs with h | h
          · left; simp [strLeB, h1, h2, h]
          · right; simp [strLeB, h1, h2, h]

theorem strLeB_trans : ∀ as bs cs, strLeB as bs = true → strLeB bs cs = true →
    strLeB as cs = true := by
  intro as
  induction as with
  | nil => intro bs cs _ _; rfl
  | cons a as ih =>
    intro bs cs h1 h2
    cases bs with
    | nil => simp [strLeB] at h1
    | cons b bs =>
      cases cs with
      | nil => simp [strLeB] at h2
      | cons c cs =>
        simp only [strLeB] at h1 h2 ⊢
        rcases Nat.lt_trichotomy a.toNat b.toNat with hab | hab | hab
        · rcases Nat.lt_trichotomy b.toNat c.toNat with hbc | hbc | hbc
          · rw [if_pos (by omega)]
          · rw [if_pos (by omega)]
          · rw [if_neg (by omega), if_pos hbc] at h2
            exact Bool.noConfusion h2
        · rw [if_neg (by omega), if_neg (by omega)] at h1
          rcases Nat.lt_trichotomy b.toNat c.toNat with hbc | hbc | hbc
          · rw [if_pos (by omega)]
          · rw [if_neg (by omega), if_neg (by omega)] at h2
            rw [if_neg (by omega), if_neg (by omega)]
            exact ih bs cs h1 h2
          · rw [if_neg (by omega), if_pos hbc] at h2
            exact Bool.noConfusion h2
        · rw [if_neg (by omega), if_pos hab] at h1
          exact Bool.noConfusion h1

theorem strLeB_antisymm : ∀ as bs, strLeB as bs = true → strLeB bs as = true →
    as = bs := by
  intro as
  induction as with
  | nil =>
    intro bs _ h2
    cases bs with
    | nil => rfl
    | cons b bs => simp [strLeB] at h2
  | cons a as ih =>
    intro bs h1 h2
    cases bs with
    | nil => simp [strLeB] at h1
    | cons b bs =>
      simp only [strLeB] at h1 h2
      rcases Nat.lt_trichotomy a.toNat b.toNat with hab | hab | hab
      · rw [if_neg (by omega), if_pos hab] at h2
        exact Bool.noConfusion h2
      · have h3 : a.toNat = b.toNat := hab
        have heq : a = b := Char.ext (UInt32.toNat.inj h3)
        rw [if_neg (by omega), if_neg (by omega)] at h1
        rw [if_neg (by omega), if_neg (by omega)] at h2
        rw [heq, ih bs h1 h2]
      · rw [if_neg (by omega), if_pos hab] at h1
        exact Bool.noConfusion h1

instance : IsTotal PhotoMeta timeLe :=
  ⟨fun a b => strLeB_total a.time.toList b.time.toList⟩

instance : IsTrans PhotoMeta timeLe :=
  ⟨fun _ _ _ h1 h2 => strLeB_trans _ _ _ h1 h2⟩

theorem daysInMonth_le (y m : Nat) : daysInMonth y m ≤ 31 := by
  unfold daysInMonth
  split
  · split <;> omega
  · split <;> omega

theorem expectChar_cons (c : Char) (rest : List Char) :
    expectChar c (c :: rest) = some rest := by
  simp [expectChar]

theorem matchSpaces_single (c : Char) (rest : List Char)
    (hc : c.isWhitespace = false) :
    matchSpaces (' ' :: c :: rest) = some (c :: rest) := by
  simp [matchSpaces, List.dropWhile_cons, hc]

theorem matchYear_pad4 (y : Nat) (rest : List Char) :
    matchYear (Char.ofNat (48 + y / 1000 % 10) :: Char.ofNat (48 + y / 100 % 10) ::
      Char.ofNat (48 + y / 10 % 10) :: Char.ofNat (48 + y % 10) :: rest) =
      some (y % 10000, rest) := by
  have hlt : ∀ n : Nat, n % 10 < 10 := fun n => Nat.mod_lt _ (by norm_num)
  have hdig : ∀ n : Nat, (Char.ofNat (48 + n % 10)).isDigit = true := fun n =>
    (by decide : ∀ j, j < 10 → (Char.ofNat (48 + j)).isDigit = true) _ (hlt n)
  have hval : ∀ n : Nat, digitVal (Char.ofNat (48 + n % 10)) = n % 10 := fun n =>
    (by decide : ∀ j, j < 10 → digitVal (Char.ofNat (48 + j)) = j) _ (hlt n)
  have hrec : y / 1000 % 10 * 1000 + y / 100 % 10 * 100 + y / 10 % 10 * 10 + y % 10 =
      y % 10000 := by omega
  simp [matchYear, hdig, hval, hrec]

theorem matchField_pad2 (ok1 ok2 : Nat → Bool) (n : Nat) (hn : n ≤ 99)
    (c3 : Char) (rest : List Char) (hc3 : c3.isDigit = false)
    (hok : ok2 n = true) :
    matchField ok1 ok2 (Char.ofNat (48 + n / 10 % 10) ::
      Char.ofNat (48 + n % 10) :: c3 :: rest) = some (n, c3 :: rest) := by
  have hlt : ∀ k : Nat, k % 10 < 10 := fun k => Nat.mod_lt _ (by norm_num)
  have hdig : ∀ k : Nat, (Char.ofNat (48 + k % 10)).isDigit = true := fun k =>
    (by decide : ∀ j, j < 10 → (Char.ofNat (48 + j)).isDigit = true) _ (hlt k)
  have hval : ∀ k : Nat, digitVal (Char.ofNat (48 + k % 10)) = k % 10 := fun k =>
    (by decide : ∀ j, j < 10 → digitVal (Char.ofNat (48 + j)) = j) _ (hlt k)
  have hrec : n / 10 % 10 * 10 + n % 10 = n := by omega
  simp [matchField, hdig, hval, hrec, hc3, hok]

theorem matchField_pad2_nil (ok1 ok2 : Nat → Bool) (n : Nat) (hn : n ≤ 99)
    (hok : ok2 n = true) :
    matchField ok1 ok2 [Char.ofNat (48 + n / 10 % 10), Char.ofNat (48 + n % 10)] =
      some (n, []) := by
  have hlt : ∀ k : Nat, k % 10 < 10 := fun k => Nat.mod_lt _ (by norm_num)
  have hdig : ∀ k : Nat, (Char.ofNat (48 + k % 10)).isDigit = true := fun k =>
    (by decide : ∀ j, j < 10 → (Char.ofNat (48 + j)).isDigit = true) _ (hlt k)
  have hval : ∀ k : Nat, digitVal (Char.ofNat (48 + k % 10)) = k % 10 := fun k =>
    (by decide : ∀ j, j < 10 → digitVal (Char.ofNat (48 + j)) = j) _ (hlt k)
  have hrec : n / 10 % 10 * 10 + n % 10 = n := by omega
  simp [matchField, hdig, hval, hrec, hok]

/-- C1: `_save_file` writes the encoded bytes when the destination path does
not exist; when it exists it compares the md5 hash of the new bytes with a
hash of the existing file's bytes — equal hashes leave the filesystem
completely untouched and skip, different hashes overwrite the file with
the new bytes. -/
theorem save_file_hash_gated (c : Codec) (q : Nat) (dest : FsPath)
    (image : Image) (fs : FileSys) :
    (getFile fs dest = none →
      save_file c q dest image fs =
        (WriteResult.written, setFile dest (c.encode image q) fs)) ∧
    (∀ old, getFile fs dest = some old →
      c.md5 (c.encode image q) = c.md5 old →
      save_file c q dest image fs = (WriteResult.skipped, fs)) ∧
    (∀ old, getFile fs dest = some old →
      c.md5 (c.encode image q) ≠ c.md5 old →
      save_file c q dest image fs =
        (WriteResult.written, setFile dest (c.encode image q) fs)) := by
  refine ⟨fun h => ?_, fun old h heq => ?_, fun old h hne => ?_⟩
  · simp [save_file, h]
  · simp [save_file, h, heq]
  · simp [save_file, h, hne]

/-- Witness for C1: a missing destination is written; an existing identical
destination is skipped; an existing different destination is overwritten. -/
theorem save_file_hash_gated_witness :
    save_file exCodec 85 exPath exImg emptyFs =
      (WriteResult.written, setFile exPath (exCodec.encode exImg 85) emptyFs) ∧
    save_file exCodec 85 exPath exImg exFsSame = (WriteResult.skipped, exFsSame) ∧
    save_file exCodec 85 exPath exImg exFsDiff =
      (WriteResult.written, setFile exPath (exCodec.encode exImg 85) exFsDiff) :=
  ⟨(save_file_hash_gated exCodec 85 exPath exImg emptyFs).1 (by decide),
   (save_file_hash_gated exCodec 85 exPath exImg exFsSame).2.1
     [2, 3, 85] (by decide) (by decide),
   (save_file_hash_gated exCodec 85 exPath exImg exFsDiff).2.2
     [9] (by decide) (by decide)⟩

/-- C5: every capture-time value in the fixed `YYYY:MM:DD HH:MM:SS` pattern
(with field values in the ranges `datetime` accepts) parses, receives the
fixed UTC+8 default offset, and renders as full ISO 8601 — date, `T`,
time, and the `+08:00` zone suffix. -/
theorem parse_time_renders_iso8601 (y mo d h mi s : Nat)
    (hy1 : 1 ≤ y) (hy2 : y ≤ 9999) (hmo1 : 1 ≤ mo) (hmo2 : mo ≤ 12)
    (hd1 : 1 ≤ d) (hd2 : d ≤ daysInMonth y mo)
    (hh : h ≤ 23) (hmi : mi ≤ 59) (hs : s ≤ 59) :
    parse_time (exifTimeString y mo d h mi s) =
      Except.ok (pad4 y ++ "-" ++ pad2 mo ++ "-" ++ pad2 d ++ "T" ++
        pad2 h ++ ":" ++ pad2 mi ++ ":" ++ pad2 s ++ "+08:00") := by
  have hd31 : d ≤ 31 := le_trans hd2 (daysInMonth_le y mo)
  have hws : ∀ k, k < 10 → (Char.ofNat (48 + k)).isWhitespace = false := by decide
  have hlt : ∀ n : Nat, n % 10 < 10 := fun n => Nat.mod_lt _ (by norm_num)
  have hy' : y % 10000 = y := Nat.mod_eq_of_lt (by omega)
  have hmatch : matchExifPattern (exifTimeString y mo d h mi s).toList =
      some (y, mo, d, h, mi, s) := by
    show matchExifPattern
      [Char.ofNat (48 + y / 1000 % 10), Char.ofNat (48 + y / 100 % 10),
       Char.ofNat (48 + y / 10 % 10), Char.ofNat (48 + y % 10), ':',
       Char.ofNat (48 + mo / 10 % 10), Char.ofNat (48 + mo % 10), ':',
       Char.ofNat (48 + d / 10 % 10), Char.ofNat (48 + d % 10), ' ',
       Char.ofNat (48 + h / 10 % 10), Char.ofNat (48 + h % 10), ':',
       Char.ofNat (48 + mi / 10 % 10), Char.ofNat (48 + mi % 10), ':',
       Char.ofNat (48 + s / 10 % 10), Char.ofNat (48 + s % 10)] =
      some (y, mo, d, h, mi, s)
    simp only [matchExifPattern, matchYear_pad4 y, hy', expectChar_cons,
      matchField_pad2 monthOk1 monthOk2 mo (by omega) ':' _ (by decide)
        (decide_eq_true ⟨hmo1, hmo2⟩),
      matchField_pad2 dayOk1 dayOk2 d (by omega) ' ' _ (by decide)
        (decide_eq_true ⟨hd1, hd31⟩),
      matchSpaces_single _ _ (hws _ (hlt (h / 10))),
      matchField_pad2 hourOk1 hourOk2 h (by omega) ':' _ (by decide)
        (decide_eq_true hh),
      matchField_pad2 minuteOk1 minuteOk2 mi (by omega) ':' _ (by decide)
        (decide_eq_true hmi),
      matchField_pad2_nil secondOk1 secondOk2 s (by omega)
        (decide_eq_true (by omega)), if_true]
  unfold parse_time
  rw [hmatch]
  show (if 1 ≤ y ∧ 1 ≤ mo ∧ mo ≤ 12 ∧ 1 ≤ d ∧ d ≤ daysInMonth y mo ∧
      h ≤ 23 ∧ mi ≤ 59 ∧ s ≤ 59 then
      Except.ok (isoFormat8 y mo d h mi s)
    else Except.error ("invalid time field value")) = _
  rw [if_pos ⟨hy1, hmo1, hmo2, hd1, hd2, hh, hmi, hs⟩]
  rfl

/-- Witness for C5 at the concrete tag value `2023:05:01 10:00:00`. -/
theorem parse_time_renders_iso8601_witness :
    parse_time (exifTimeString 2023 5 1 10 0 0) =
      Except.ok (pad4 2023 ++ "-" ++ pad2 5 ++ "-" ++ pad2 1 ++ "T" ++
        pad2 10 ++ ":" ++ pad2 0 ++ ":" ++ pad2 0 ++ "+08:00") :=
  parse_time_renders_iso8601 2023 5 1 10 0 0 (by decide) (by decide) (by decide)
    (by decide) (by decide) (by decide) (by decide) (by decide) (by decide)

/-- C6: the orientation tag 0x0112 maps value 3 to a 180° rotation (canvas
dimensions kept), 6 to 270° and 8 to 90° (canvas expanded to the swapped
dimensions); every other value — another integer, a non-integer value, or
an absent tag — yields no rotation and no error. -/
theorem orientation_mapping (tags : List (Nat × ExifVal)) (image : Image) :
    (tags.lookup 0x0112 = some (ExifVal.num 3) →
      orientImage tags image = image.rotate 180 ∧
      (orientImage tags image).height = image.height ∧
      (orientImage tags image).width = image.width) ∧
    (tags.lookup 0x0112 = some (ExifVal.num 6) →
      orientImage tags image = image.rotate 270 ∧
      (orientImage tags image).height = image.width ∧
      (orientImage tags image).width = image.height) ∧
    (tags.lookup 0x0112 = some (ExifVal.num 8) →
      orientImage tags image = image.rotate 90 ∧
      (orientImage tags image).height = image.width ∧
      (orientImage tags image).width = image.height) ∧
    (∀ o, tags.lookup 0x0112 = some (ExifVal.num o) →
      o ≠ 3 → o ≠ 6 → o ≠ 8 → orientImage tags image = image) ∧
    (∀ v, tags.lookup 0x0112 = some (ExifVal.str v) →
      orientImage tags image = image) ∧
    (tags.lookup 0x0112 = none → orientImage tags image = image) := by
  refine ⟨fun h => ?_, fun h => ?_, fun h => ?_,
    fun o h h3 h6 h8 => ?_, fun v h => ?_, fun h => ?_⟩
  · simp [orientImage, h, orientationDegree, Image.rotate]
  · simp [orientImage, h, orientationDegree, Image.rotate]
  · simp [orientImage, h, orientationDegree, Image.rotate]
  · simp [orientImage, h, orientationDegree, h3, h6, h8]
  · simp [orientImage, h]
  · simp [orientImage, h]

/-- Witness for C6 on concrete tag sets: values 6, 3 and 1 and the absent
tag, on a 2×3 image. -/
theorem orientation_mapping_witness :
    (orientImage [(0x0112, ExifVal.num 6)] exImg = exImg.rotate 270 ∧
      (orientImage [(0x0112, ExifVal.num 6)] exImg).height = exImg.width ∧
      (orientImage [(0x0112, ExifVal.num 6)] exImg).width = exImg.height) ∧
    (orientImage [(0x0112, ExifVal.num 3)] exImg = exImg.rotate 180 ∧
      (orientImage [(0x0112, ExifVal.num 3)] exImg).height = exImg.height ∧
      (orientImage [(0x0112, ExifVal.num 3)] exImg).width = exImg.width) ∧
    orientImage [(0x0112, ExifVal.num 1)] exImg = exImg ∧
    orientImage [] exImg = exImg :=
  ⟨(orientation_mapping [(0x0112, ExifVal.num 6)] exImg).2.1 (by decide),
   (orientation_mapping [(0x0112, ExifVal.num 3)] exImg).1 (by decide),
   (orientation_mapping [(0x0112, ExifVal.num 1)] exImg).2.2.2.1 1 (by decide)
     (by decide) (by decide) (by decide),
   (orientation_mapping [] exImg).2.2.2.2.2 (by decide)⟩

/-- C7: the metadata of a successfully processed photo records in `hw` the
height and width of the oriented image — measured after rotation, before
any resize (the variants are resized from the oriented image afterwards);
with orientation 6 the recorded pair is the raw decoded pair swapped. -/
theorem meta_hw_post_orientation (c : Codec) (f : SourceFile) (img : Image)
    (tags : List (Nat × ExifVal)) (v t : String)
    (hdec : f.image = some img) (hexif : img.exif = some tags)
    (htag : tags.lookup 0x0132 = some (ExifVal.str v))
    (hparse : parse_time v = Except.ok t) :
    open_image c f =
      Except.ok (some
        ({ hw := [(orientImage tags img).height, (orientImage tags img).width],
           time := t, name := fileName f },
         variantSpecs.map (fun nb => (nb.1, resize c (orientImage tags img) nb.2)))) ∧
    (tags.lookup 0x0112 = some (ExifVal.num 6) →
      [(orientImage tags img).height, (orientImage tags img).width] =
        [img.width, img.height]) := by
  constructor
  · simp [open_image, hdec, hexif, htag, hparse]
  · intro h6
    simp [orientImage, h6, orientationDegree, Image.rotate]

/-- Witness for C7 on the 2×3 source image `exGoodFile`, tagged with a
valid capture time and orientation 6. -/
theorem meta_hw_post_orientation_witness :
    open_image exCodec exGoodFile =
      Except.ok (some
        ({ hw := [(orientImage exGoodTags exGoodImg).height,
                  (orientImage exGoodTags exGoodImg).width],
           time := "2023-05-01T10:00:00+08:00", name := fileName exGoodFile },
         variantSpecs.map (fun nb =>
           (nb.1, resize exCodec (orientImage exGoodTags exGoodImg) nb.2)))) ∧
    (exGoodTags.lookup 0x0112 = some (ExifVal.num 6) →
      [(orientImage exGoodTags exGoodImg).height,
       (orientImage exGoodTags exGoodImg).width] =
        [exGoodImg.width, exGoodImg.height]) :=
  meta_hw_post_orientation exCodec exGoodFile exGoodImg exGoodTags
    ("2023:05:01 10:00:00") ("2023-05-01T10:00:00+08:00")
    rfl rfl (by decide) rfl

theorem poolMap_nil (c : Codec) (q : Nat) (fs : FileSys) :
    poolMap c q [] fs = Except.ok ([], fs) := rfl

theorem poolMap_cons_err (c : Codec) (q : Nat) (p : SourceFile)
    (rest : List SourceFile) (fs : FileSys) (e : PipeErr)
    (h : process_and_get_meta c q fs p = Except.error e) :
    poolMap c q (p :: rest) fs = Except.error e := by
  simp [poolMap, h]

theorem poolMap_cons_ok_err (c : Codec) (q : Nat) (p : SourceFile)
    (rest : List SourceFile) (fs : FileSys) (m : Option PhotoMeta)
    (fs1 : FileSys) (e : PipeErr)
    (h1 : process_and_get_meta c q fs p = Except.ok (m, fs1))
    (h2 : poolMap c q rest fs1 = Except.error e) :
    poolMap c q (p :: rest) fs = Except.error e := by
  simp [poolMap, h1, h2]

theorem poolMap_cons_ok_ok (c : Codec) (q : Nat) (p : SourceFile)
    (rest : List SourceFile) (fs : FileSys) (m : Option PhotoMeta)
    (fs1 : FileSys) (ms : List (Option PhotoMeta)) (fs2 : FileSys)
    (h1 : process_and_get_meta c q fs p = Except.ok (m, fs1))
    (h2 : poolMap c q rest fs1 = Except.ok (ms, fs2)) :
    poolMap c q (p :: rest) fs = Except.ok (m :: ms, fs2) := by
  simp [poolMap, h1, h2]

theorem open_image_missing_time (c : Codec) (f : SourceFile) (img : Image)
    (hdec : f.image = some img)
    (hmiss : img.exif = none ∨
      ∃ tags, img.exif = some tags ∧ tags.lookup 0x0132 = none) :
    open_image c f = Except.ok none := by
  rcases hmiss with h | ⟨tags, h, h2⟩
  · simp [open_image, hdec, h]
  · simp [open_image, hdec, h, h2]

theorem poolMap_skip_middle (c : Codec) (q : Nat) (f : SourceFile)
    (h : ∀ fs, process_and_get_meta c q fs f = Except.ok (none, fs))
    (post : List SourceFile) :
    ∀ pre fs,
      Except.map (fun r => (r.1.filterMap id, r.2)) (poolMap c q (pre ++ f :: post) fs) =
      Except.map (fun r => (r.1.filterMap id, r.2)) (poolMap c q (pre ++ post) fs) := by
  intro pre
  induction pre with
  | nil =>
    intro fs
    rw [List.nil_append, List.nil_append]
    cases hp : poolMap c q post fs with
    | error e =>
      rw [poolMap_cons_ok_err c q f post fs none fs e (h fs) hp]
    | ok r =>
      cases r with
      | mk ms fs2 =>
        rw [poolMap_cons_ok_ok c q f post fs none fs ms fs2 (h fs) hp]
        simp [Except.map, List.filterMap_cons]
  | cons p pre ih =>
    intro fs
    rw [List.cons_append, List.cons_append]
    cases hp : process_and_get_meta c q fs p with
    | error e =>
      rw [poolMap_cons_err c q p (pre ++ f :: post) fs e hp,
        poolMap_cons_err c q p (pre ++ post) fs e hp]
    | ok r =>
      cases r with
      | mk m fs1 =>
        have hmap := ih fs1
        cases h1 : poolMap c q (pre ++ f :: post) fs1 with
        | error e =>
          cases h2 : poolMap c q (pre ++ post) fs1 with
          | error e2 =>
            rw [h1, h2] at hmap
            simp only [Except.map, Except.error.injEq] at hmap
            rw [poolMap_cons_ok_err c q p (pre ++ f :: post) fs m fs1 e hp h1,
              poolMap_cons_ok_err c q p (pre ++ post) fs m fs1 e2 hp h2, hmap]
          | ok r2 =>
            rw [h1, h2] at hmap
            exact absurd hmap (by simp [Except.map])
        | ok r1 =>
          cases h2 : poolMap c q (pre ++ post) fs1 with
          | error e2 =>
            rw [h1, h2] at hmap
            exact absurd hmap (by simp [Except.map])
          | ok r2 =>
            cases r1 with
            | mk ms1 fs2 =>
              cases r2 with
              | mk ms2 fs3 =>
                rw [h1, h2] at hmap
                simp only [Except.map, Except.ok.injEq, Prod.mk.injEq] at hmap
                rw [poolMap_cons_ok_ok c q p (pre ++ f :: post) fs m fs1 ms1 fs2 hp h1,
                  poolMap_cons_ok_ok c q p (pre ++ post) fs m fs1 ms2 fs3 hp h2]
                cases m with
                | none => simp [Except.map, List.filterMap_cons, hmap.1, hmap.2]
                | some meta => simp [Except.map, List.filterMap_cons, hmap.1, hmap.2]

theorem sorted_timeLtNe_of_nodup (l : List PhotoMeta)
    (hn : (l.map PhotoMeta.time).Nodup) (hs : List.Sorted timeLe l) :
    List.Sorted timeLtNe l := by
  have hne : l.Pairwise (fun a b => a.time ≠ b.time) := List.pairwise_map.mp hn
  exact (hs.and hne).imp (fun h => h)

theorem save_file_dirs (c : Codec) (q : Nat) (dest : FsPath) (image : Image)
    (fs : FileSys) : ((save_file c q dest image fs).2).dirs = fs.dirs := by
  simp only [save_file]
  cases hg : getFile fs dest with
  | none => simp [setFile]
  | some old =>
    by_cases hh : c.md5 (c.encode image q) = c.md5 old <;> simp [hh, setFile]

theorem mem_dirs_mkdirParents (x p : FsPath) (fs : FileSys) (hx : x ∈ fs.dirs) :
    x ∈ (mkdirParents p fs).dirs := by
  simp only [mkdirParents, List.mem_append]
  exact Or.inr hx

theorem generated_mem_mkdirParents (p2 : FsPath) (v : String) (fs : FileSys) :
    (p2 ++ ["_generated"]) ∈ (mkdirParents (p2 ++ ["_generated", v]) fs).dirs := by
  simp only [mkdirParents, List.mem_append]
  left
  simp only [List.mem_map, List.mem_range]
  refine ⟨p2.length, ?_, ?_⟩
  · simp only [List.length_append, List.length_cons, List.length_nil]
    omega
  · rw [show p2 ++ ["_generated", v] = (p2 ++ ["_generated"]) ++ [v] by simp]
    exact List.take_left' (by simp)

theorem save_mem_dirs_mono (c : Codec) (q : Nat) (f : SourceFile) (x : FsPath) :
    ∀ (imgs : List (String × Image)) (fs : FileSys), x ∈ fs.dirs →
      x ∈ (save c q f imgs fs).dirs := by
  intro imgs
  induction imgs with
  | nil => intro fs hx; exact hx
  | cons a rest ih =>
    intro fs hx
    have hstep : save c q f (a :: rest) fs =
        save c q f rest
          ((save_file c q
            (f.path.dropLast.dropLast ++ ["_generated", a.1] ++ [fileName f]) a.2
            (mkdirParents (f.path.dropLast.dropLast ++ ["_generated", a.1]) fs)).2) := rfl
    rw [hstep]
    apply ih
    rw [save_file_dirs]
    exact mem_dirs_mkdirParents x _ _ hx

theorem save_creates_generated (c : Codec) (q : Nat) (f : SourceFile)
    (imgs : List (String × Image)) (fs : FileSys) (hne : imgs ≠ []) :
    (f.path.dropLast.dropLast ++ ["_generated"]) ∈ (save c q f imgs fs).dirs := by
  cases imgs with
  | nil => exact absurd rfl hne
  | cons a rest =>
    have hstep : save c q f (a :: rest) fs =
        save c q f rest
          ((save_file c q
            (f.path.dropLast.dropLast ++ ["_generated", a.1] ++ [fileName f]) a.2
            (mkdirParents (f.path.dropLast.dropLast ++ ["_generated", a.1]) fs)).2) := rfl
    rw [hstep]
    apply save_mem_dirs_mono
    rw [save_file_dirs]
    exact generated_mem_mkdirParents _ _ _

theorem open_image_imgs_ne_nil (c : Codec) (f : SourceFile) (meta : PhotoMeta)
    (imgs : List (String × Image))
    (h : open_image c f = Except.ok (some (meta, imgs))) : imgs ≠ [] := by
  cases hi : f.image with
  | none => simp [open_image, hi] at h
  | some img =>
    cases he : img.exif with
    | none => simp [open_image, hi, he] at h
    | some tags =>
      cases ht : tags.lookup 0x0132 with
      | none => simp [open_image, hi, he, ht] at h
      | some v =>
        cases v with
        | num n => simp [open_image, hi, he, ht] at h
        | str sv =>
          cases hp : parse_time sv with
          | error e => simp [open_image, hi, he, ht, hp] at h
          | ok t =>
            simp only [open_image, hi, he, ht, hp, Except.ok.injEq,
              Option.some.injEq, Prod.mk.injEq] at h
            rcases h with ⟨h1, h2⟩
            rw [← h2]
            simp [variantSpecs]

theorem process_some_creates_generated (c : Codec) (q : Nat) (f : SourceFile)
    (meta : PhotoMeta) (fsx fsy : FileSys)
    (h : process_and_get_meta c q fsx f = Except.ok (some meta, fsy)) :
    (f.path.dropLast.dropLast ++ ["_generated"]) ∈ fsy.dirs := by
  cases ho : open_image c f with
  | error e => simp [process_and_get_meta, ho] at h
  | ok r =>
    cases r with
    | none => simp [process_and_get_meta, ho] at h
    | some pr =>
      cases pr with
      | mk m2 imgs =>
        simp only [process_and_get_meta, ho, Except.ok.injEq, Prod.mk.injEq] at h
        rcases h with ⟨h1, h2⟩
        rw [← h2]
        exact save_creates_generated c q f imgs fsx
          (open_image_imgs_ne_nil c f m2 imgs ho)

/-- C2: a source file whose tag set is absent or lacks the capture-time tag
0x0132 yields no metadata (`None`) and leaves the filesystem untouched —
no variant files are written — and a batch containing such a file produces
exactly the outcome (manifest and filesystem) of the batch without it. -/
theorem missing_timestamp_skipped (c : Codec) (q : Nat) (f : SourceFile)
    (img : Image) (hdec : f.image = some img)
    (hmiss : img.exif = none ∨
      ∃ tags, img.exif = some tags ∧ tags.lookup 0x0132 = none) :
    (∀ fs, process_and_get_meta c q fs f = Except.ok (none, fs)) ∧
    (∀ dir pre post fs, runBatch c q dir (pre ++ f :: post) fs =
      runBatch c q dir (pre ++ post) fs) := by
  have hskip : ∀ fs, process_and_get_meta c q fs f = Except.ok (none, fs) := by
    intro fs
    simp [process_and_get_meta, open_image_missing_time c f img hdec hmiss]
  refine ⟨hskip, fun dir pre post fs => ?_⟩
  have hm := poolMap_skip_middle c q f hskip post pre fs
  unfold runBatch
  cases h1 : poolMap c q (pre ++ f :: post) fs with
  | error e =>
    cases h2 : poolMap c q (pre ++ post) fs with
    | error e2 =>
      rw [h1, h2] at hm
      simp only [Except.map, Except.error.injEq] at hm
      rw [hm]
    | ok r =>
      rw [h1, h2] at hm
      exact absurd hm (by simp [Except.map])
  | ok r =>
    cases h2 : poolMap c q (pre ++ post) fs with
    | error e2 =>
      rw [h1, h2] at hm
      exact absurd hm (by simp [Except.map])
    | ok r2 =>
      cases r with
      | mk ms1 fs1 =>
        cases r2 with
        | mk ms2 fs2 =>
          rw [h1, h2] at hm
          simp only [Except.map, Except.ok.injEq, Prod.mk.injEq] at hm
          simp only [manifestOf, sortMetas, hm.1, hm.2]

/-- Witness for C2: a decoded file with no EXIF tag set is skipped, and a
one-file batch of it equals the empty batch. -/
theorem missing_timestamp_skipped_witness :
    process_and_get_meta exCodec 85 emptyFs exNoExifFile = Except.ok (none, emptyFs) ∧
    runBatch exCodec 85 ["assets"] ([] ++ exNoExifFile :: []) emptyFs =
      runBatch exCodec 85 ["assets"] ([] ++ []) emptyFs :=
  ⟨(missing_timestamp_skipped exCodec 85 exNoExifFile exImg rfl (Or.inl rfl)).1 emptyFs,
   (missing_timestamp_skipped exCodec 85 exNoExifFile exImg rfl
     (Or.inl rfl)).2 ["assets"] [] [] emptyFs⟩

/-- C10 counterexample: the value `2023:5:1 10:0:0` is not in the
fixed-width `YYYY:MM:DD HH:MM:SS` form (it is not the zero-padded
rendering of its fields), yet strptime accepts non-zero-padded fields, so
the program parses it and per-file processing succeeds — nothing is
raised. -/
theorem lenient_time_parse_cex :
    parse_time ("2023:5:1 10:0:0") =
      Except.ok ("2023-05-01T10:00:00+08:00") ∧
    ("2023:5:1 10:0:0" : String) ≠ exifTimeString 2023 5 1 10 0 0 ∧
    (process_and_get_meta exCodec 85 emptyFs exLenientFile).isOk = true :=
  ⟨rfl, by decide, rfl⟩

/-- C10 amended: a file whose capture-time tag holds a value that strptime
(format `%Y:%m:%d %H:%M:%S`) rejects makes `process_and_get_meta` raise
the parse exception instead of returning `None` — the file is not degraded
to a logged skip; a value need not be zero-padded to be accepted, so not
every deviation from the fixed-width pattern raises. -/
theorem malformed_time_raises (c : Codec) (q : Nat) (fs : FileSys)
    (f : SourceFile) (img : Image) (tags : List (Nat × ExifVal)) (v e : String)
    (hdec : f.image = some img) (hexif : img.exif = some tags)
    (htag : tags.lookup 0x0132 = some (ExifVal.str v))
    (hbad : parse_time v = Except.error e) :
    process_and_get_meta c q fs f = Except.error (PipeErr.timeParseFailure e) ∧
    ∀ m fsOut, process_and_get_meta c q fs f ≠ Except.ok (m, fsOut) := by
  have h1 : process_and_get_meta c q fs f =
      Except.error (PipeErr.timeParseFailure e) := by
    simp [process_and_get_meta, open_image, hdec, hexif, htag, hbad]
  exact ⟨h1, fun m fsOut hcon => by
    rw [h1] at hcon; exact Except.noConfusion hcon⟩

/-- Witness for the amended C10 on the tag value `not a date`, which
strptime rejects. -/
theorem malformed_time_raises_witness :
    process_and_get_meta exCodec 85 emptyFs exBadTimeFile =
      Except.error (PipeErr.timeParseFailure ("time data does not match format")) ∧
    ∀ m fsOut, process_and_get_meta exCodec 85 emptyFs exBadTimeFile ≠
      Except.ok (m, fsOut) :=
  malformed_time_raises exCodec 85 emptyFs exBadTimeFile exBadTimeImg exBadTimeTags
    ("not a date") ("time data does not match format") rfl rfl (by decide) rfl

/-- C4 counterexample: a file whose bytes fail to decode makes the per-file
operation raise the decode exception instead of yielding `None`. -/
theorem process_decode_failure_cex :
    process_and_get_meta exCodec 85 emptyFs exBadFile =
      Except.error PipeErr.decodeFailure ∧
    ∀ fs2, process_and_get_meta exCodec 85 emptyFs exBadFile ≠
      Except.ok (none, fs2) := by
  constructor
  · rfl
  · intro fs2 hcon
    rw [show process_and_get_meta exCodec 85 emptyFs exBadFile =
      Except.error PipeErr.decodeFailure from rfl] at hcon
    exact Except.noConfusion hcon

/-- C4 amended: per-file processing degrades a missing timestamp to `None`
without an exception, but a decode failure raises out of the public
per-file operation (the source catches nothing around `Image.open`). -/
theorem process_defect_behavior (c : Codec) (q : Nat) (fs : FileSys)
    (f : SourceFile) :
    (f.image = none →
      process_and_get_meta c q fs f = Except.error PipeErr.decodeFailure) ∧
    (∀ img, f.image = some img →
      (img.exif = none ∨
        ∃ tags, img.exif = some tags ∧ tags.lookup 0x0132 = none) →
      process_and_get_meta c q fs f = Except.ok (none, fs)) := by
  constructor
  · intro h
    simp [process_and_get_meta, open_image, h]
  · intro img hdec hmiss
    simp [process_and_get_meta, open_image_missing_time c f img hdec hmiss]

/-- Witness for the amended C4: the undecodable file raises, the
EXIF-less file degrades to `None`. -/
theorem process_defect_behavior_witness :
    process_and_get_meta exCodec 85 emptyFs exBadFile =
      Except.error PipeErr.decodeFailure ∧
    process_and_get_meta exCodec 85 emptyFs exNoExifFile = Except.ok (none, emptyFs) :=
  ⟨(process_defect_behavior exCodec 85 emptyFs exBadFile).1 rfl,
   (process_defect_behavior exCodec 85 emptyFs exNoExifFile).2 exImg rfl (Or.inl rfl)⟩

/-- C3 counterexample: with two distinct records sharing one `time`,
swapping the input enumeration changes the manifest — the stable sort
keeps the input order of the tied records. -/
theorem manifest_reorder_cex :
    [some exMetaB, some exMetaA].Perm [some exMetaA, some exMetaB] ∧
    exMetaA.time = exMetaB.time ∧ exMetaA ≠ exMetaB ∧
    manifestOf [some exMetaA, some exMetaB] = [exMetaA, exMetaB] ∧
    manifestOf [some exMetaB, some exMetaA] = [exMetaB, exMetaA] ∧
    manifestOf [some exMetaA, some exMetaB] ≠
      manifestOf [some exMetaB, some exMetaA] :=
  ⟨List.Perm.swap (some exMetaA) (some exMetaB) [], rfl, by decide, by decide,
   by decide, by decide⟩

/-- C3 amended: the manifest is exactly the non-`None` records sorted
non-decreasing by `time`, and reordering the input enumeration leaves the
manifest identical whenever the `time` keys are pairwise distinct; with
duplicate keys the stable sort preserves input order among the tied
records, so only equality up to permutation survives. -/
theorem manifest_sorted_of_results (results : List (Option PhotoMeta)) :
    List.Sorted timeLe (manifestOf results) ∧
    (manifestOf results).Perm (results.filterMap id) ∧
    (∀ results2, results.Perm results2 →
      ((results.filterMap id).map PhotoMeta.time).Nodup →
      manifestOf results = manifestOf results2) := by
  refine ⟨List.sorted_insertionSort timeLe _, List.perm_insertionSort timeLe _, ?_⟩
  intro results2 hperm hnodup
  haveI : IsAntisymm PhotoMeta timeLtNe :=
    ⟨fun a b h1 h2 =>
      (h1.2 (String.ext (strLeB_antisymm _ _ h1.1 h2.1))).elim⟩
  have hfil : (results.filterMap id).Perm (results2.filterMap id) :=
    hperm.filterMap id
  have hperm1 : (manifestOf results).Perm (results.filterMap id) :=
    List.perm_insertionSort timeLe _
  have hperm2 : (manifestOf results2).Perm (results2.filterMap id) :=
    List.perm_insertionSort timeLe _
  have hp : (manifestOf results).Perm (manifestOf results2) :=
    hperm1.trans (hfil.trans hperm2.symm)
  have hn1 : ((manifestOf results).map PhotoMeta.time).Nodup :=
    ((hperm1.map PhotoMeta.time).nodup_iff).mpr hnodup
  have hn2 : ((manifestOf results2).map PhotoMeta.time).Nodup :=
    ((hp.map PhotoMeta.time).nodup_iff).mp hn1
  exact List.eq_of_perm_of_sorted hp
    (sorted_timeLtNe_of_nodup _ hn1 (List.sorted_insertionSort timeLe _))
    (sorted_timeLtNe_of_nodup _ hn2 (List.sorted_insertionSort timeLe _))

/-- Witness for the amended C3 on a two-element result list with distinct
keys (one record, one `None`). -/
theorem manifest_sorted_of_results_witness :
    List.Sorted timeLe (manifestOf [some exMetaA, none]) ∧
    (manifestOf [some exMetaA, none]).Perm ([some exMetaA, none].filterMap id) ∧
    manifestOf [some exMetaA, none] = manifestOf [none, some exMetaA] :=
  ⟨(manifest_sorted_of_results [some exMetaA, none]).1,
   (manifest_sorted_of_results [some exMetaA, none]).2.1,
   (manifest_sorted_of_results [some exMetaA, none]).2.2 [none, some exMetaA]
     (List.Perm.swap none (some exMetaA) []) (by decide)⟩

/-- C8 counterexample: on a fresh tree, the empty batch and the
all-skipped batch never create `_generated`, so the driver's final
`open('w')` raises `FileNotFoundError` and no manifest is written; a
decode failure aborts even earlier. -/
theorem batch_abort_cex :
    runBatch exCodec 85 ["assets"] [] emptyFs =
      Except.error PipeErr.fileNotFound ∧
    runBatch exCodec 85 ["assets"] [exNoExifFile] emptyFs =
      Except.error PipeErr.fileNotFound ∧
    runBatch exCodec 85 ["assets"] [exBadFile] emptyFs =
      Except.error PipeErr.decodeFailure ∧
    ∀ r, runBatch exCodec 85 ["assets"] [] emptyFs ≠ Except.ok r := by
  refine ⟨rfl, rfl, rfl, fun r hcon => ?_⟩
  rw [show runBatch exCodec 85 ["assets"] [] emptyFs =
    Except.error PipeErr.fileNotFound from rfl] at hcon
  exact Except.noConfusion hcon

/-- C8 amended: after an exception-free collection phase, the driver
writes the manifest — exactly the sorted successful subset — at
`assetsDir/_generated/metas.json` precisely when the `_generated`
directory exists by then: it is created by the save of every successfully
processed file (or survives from an earlier run), and when it does not
exist — no file succeeded on a fresh tree, covering the empty and
all-skipped batches — the driver's `open('w')` raises `FileNotFoundError`
and no manifest is written. -/
theorem batch_writes_manifest (c : Codec) (q : Nat) (dir : FsPath)
    (files : List SourceFile) (fs : FileSys)
    (ms : List (Option PhotoMeta)) (fs1 : FileSys)
    (h : poolMap c q files fs = Except.ok (ms, fs1)) :
    ((dir ++ ["_generated"]) ∈ fs1.dirs →
      runBatch c q dir files fs =
        Except.ok (manifestOf ms,
          setFile (dir ++ ["_generated", "metas.json"])
            (c.jsonDump (manifestOf ms)) fs1) ∧
      getFile (setFile (dir ++ ["_generated", "metas.json"])
          (c.jsonDump (manifestOf ms)) fs1) (dir ++ ["_generated", "metas.json"]) =
        some (c.jsonDump (manifestOf ms))) ∧
    ((dir ++ ["_generated"]) ∉ fs1.dirs →
      runBatch c q dir files fs = Except.error PipeErr.fileNotFound) ∧
    (manifestOf ms).Perm (ms.filterMap id) ∧
    List.Sorted timeLe (manifestOf ms) ∧
    (∀ f meta fsx fsy,
      process_and_get_meta c q fsx f = Except.ok (some meta, fsy) →
      (f.path.dropLast.dropLast ++ ["_generated"]) ∈ fsy.dirs) := by
  refine ⟨fun hmem => ⟨?_, ?_⟩, fun hmem => ?_,
    List.perm_insertionSort timeLe _, List.sorted_insertionSort timeLe _,
    fun f meta fsx fsy hp => process_some_creates_generated c q f meta fsx fsy hp⟩
  · simp [runBatch, h, hmem]
  · simp [getFile, setFile, List.lookup]
  · simp [runBatch, h, hmem]

/-- Witness for the amended C8: a pre-existing `_generated` lets the empty
batch write the (empty) manifest, the fresh tree makes it raise, and the
successfully processed `exGoodFile` creates `assets/_generated`. -/
theorem batch_writes_manifest_witness :
    (runBatch exCodec 85 ["assets"] [] preFs =
      Except.ok (manifestOf [],
        setFile (["assets"] ++ ["_generated", "metas.json"])
          (exCodec.jsonDump (manifestOf [])) preFs) ∧
     getFile (setFile (["assets"] ++ ["_generated", "metas.json"])
        (exCodec.jsonDump (manifestOf [])) preFs)
        (["assets"] ++ ["_generated", "metas.json"]) =
      some (exCodec.jsonDump (manifestOf []))) ∧
    runBatch exCodec 85 ["assets"] [] emptyFs =
      Except.error PipeErr.fileNotFound ∧
    (["assets", "_generated"] : FsPath) ∈ exGoodFs.dirs :=
  ⟨(batch_writes_manifest exCodec 85 ["assets"] [] preFs [] preFs rfl).1
     (by decide),
   (batch_writes_manifest exCodec 85 ["assets"] [] emptyFs [] emptyFs rfl).2.1
     (by decide),
   (batch_writes_manifest exCodec 85 ["assets"] [] emptyFs [] emptyFs
     rfl).2.2.2.2 exGoodFile exGoodMeta emptyFs exGoodFs rfl⟩

/-- C9 counterexample: with hardware concurrency 1 the code's default pool
size is `1 // 2 = 0`, not the minimum of 1 the spec states. -/
theorem default_nproc_cex :
    defaultNproc 1 = 0 ∧ specDefaultNproc 1 = 1 ∧
    defaultNproc 1 ≠ specDefaultNproc 1 := by decide

/-- C9 amended: the default worker count is half the hardware concurrency
rounded down with no minimum applied; it agrees with the spec's minimum-1
rule exactly for concurrency at least 2, and is 0 for concurrency 0 or 1. -/
theorem default_nproc_no_minimum (cpuCount : Nat) :
    defaultNproc cpuCount = cpuCount / 2 ∧
    (defaultNproc cpuCount = specDefaultNproc cpuCount ↔ 2 ≤ cpuCount) := by
  refine ⟨rfl, ?_⟩
  unfold defaultNproc specDefaultNproc
  omega

/-- Witness for the amended C9 at concurrency 4 and 1. -/
theorem default_nproc_no_minimum_witness :
    (defaultNproc 4 = 4 / 2 ∧ (defaultNproc 4 = specDefaultNproc 4 ↔ 2 ≤ 4)) ∧
    (defaultNproc 1 = 1 / 2 ∧ (defaultNproc 1 = specDefaultNproc 1 ↔ 2 ≤ 1)) :=
  ⟨default_nproc_no_minimum 4, default_nproc_no_minimum 1⟩
